import Mathlib

/-!
Verification of the jarvis-auth-client library against its design
specification.  The Python sources are shallowly embedded: strings are
lists of characters, the mutable module state of the FastAPI integration
is threaded explicitly, and the network is an explicit input (the
response, or a transport error, that the outbound call would produce).
-/

namespace JarvisAuthClient

/-! ## Embedding of jarvis_auth_client/headers.py -/

/-- Characters stripped by the Python `str.strip` method (ASCII whitespace). -/
def pyWhitespace : List Char := [' ', '\t', '\n', '\r', '\x0b', '\x0c']

/-- Whether `str.strip` removes this character. -/
def isPySpace (c : Char) : Bool := decide (c ∈ pyWhitespace)

/-- Python `str.strip`: drop leading and trailing whitespace. -/
def pyStripChars (cs : List Char) : List Char :=
  ((cs.dropWhile isPySpace).reverse.dropWhile isPySpace).reverse

/-- Numeric value of a decimal digit character. -/
def digitVal (c : Char) : Nat := c.toNat - '0'.toNat

/-- The character for a decimal digit. -/
def digitChar (d : Nat) : Char := Char.ofNat ('0'.toNat + d)

/-- Left-to-right decimal accumulation over a character list; fails on the
first character that is not an ASCII digit. -/
def parseDigitsAux (acc : Nat) : List Char → Option Nat
  | [] => some acc
  | c :: cs => if c.isDigit then parseDigitsAux (acc * 10 + digitVal c) cs else none

/-- Parse a non-empty string of ASCII digits as a natural number. -/
def parseNatChars (cs : List Char) : Option Nat :=
  if cs.isEmpty then none else parseDigitsAux 0 cs

/-- The Python `int` builtin applied to a string: strip whitespace, accept an
optional single sign, then require at least one decimal digit. -/
def pyIntParseChars (cs : List Char) : Option Int :=
  match pyStripChars cs with
  | [] => none
  | c :: rest =>
    if c = '+' then (parseNatChars rest).map Int.ofNat
    else if c = '-' then (parseNatChars rest).map (fun n => -(n : Int))
    else (parseNatChars (c :: rest)).map Int.ofNat

/-- Fueled big-endian decimal printer; `natToCharsAux fuel n acc` prepends the
decimal digits of `n` to `acc`, for `n ≤ fuel`. -/
def natToCharsAux : Nat → Nat → List Char → List Char
  | 0, _, acc => acc
  | fuel + 1, n, acc =>
    if n = 0 then acc
    else natToCharsAux fuel (n / 10) (digitChar (n % 10) :: acc)

/-- Decimal representation of a natural number, as Python `str` produces it. -/
def natToChars (n : Nat) : List Char :=
  if n = 0 then ['0'] else natToCharsAux n n []

/-- The Python `str` builtin on an integer. -/
def pyStrOfInt (n : Int) : List Char :=
  if n < 0 then '-' :: natToChars n.natAbs else natToChars n.toNat

/-- Python `str.split(sep)` for a one-character separator: splitting the empty
string yields one empty field, and every separator starts a new field. -/
def splitOnChar (sep : Char) : List Char → List (List Char)
  | [] => [[]]
  | c :: cs =>
    if c = sep then [] :: splitOnChar sep cs
    else
      match splitOnChar sep cs with
      | [] => [[c]]
      | p :: ps => (c :: p) :: ps

/-- Python `sep.join(parts)` for a one-character separator. -/
def intercalateChars (sep : Char) : List (List Char) → List Char
  | [] => []
  | [x] => x
  | x :: xs => x ++ sep :: intercalateChars sep xs

/-- Evaluate an option-valued function over a list, failing as soon as one
element fails, exactly as the list comprehension inside the `try` block of
`parse_household_member_ids` does. -/
def optionTraverse (f : α → Option β) : List α → Option (List β)
  | [] => some []
  | x :: xs =>
    match f x, optionTraverse f xs with
    | some y, some ys => some (y :: ys)
    | _, _ => none

/-- Python truthiness of a string: non-empty. -/
def strTruthy (cs : List Char) : Bool := !cs.isEmpty

/-- Python truthiness of an optional string: present and non-empty. -/
def optStrTruthy : Option (List Char) → Bool
  | none => false
  | some cs => strTruthy cs

/-- The context headers built by `build_context_headers`: the Python dict has
one optional entry per header name, so it is embedded as a structure of
optional values. -/
structure ContextHeaders where
  householdId : Option (List Char)
  nodeId : Option (List Char)
  userId : Option (List Char)
  memberIds : Option (List Char)
  deriving Repr, DecidableEq

/-- `build_context_headers` from headers.py: each header is included only when
its source value is truthy (for `user_id`: only when it is not `None`); the
member-id list is comma-joined decimal text. -/
def build_context_headers (household_id node_id : Option (List Char))
    (user_id : Option Int) (household_member_ids : Option (List Int)) :
    ContextHeaders :=
  { householdId := if optStrTruthy household_id then household_id else none
    nodeId := if optStrTruthy node_id then node_id else none
    userId := user_id.map pyStrOfInt
    memberIds :=
      match household_member_ids with
      | none => none
      | some l =>
        if l.isEmpty then none
        else some (intercalateChars ',' (l.map pyStrOfInt)) }

/-- The comma-separated segments of the header value after stripping each and
dropping empties: the elements the comprehension in
`parse_household_member_ids` converts with `int`. -/
def keptSegments (cs : List Char) : List (List Char) :=
  ((splitOnChar ',' cs).map pyStripChars).filter (fun m => !m.isEmpty)

/-- `parse_household_member_ids` from headers.py: falsy input yields `[]`;
otherwise split on commas, strip, drop empty segments, and convert each with
`int`; any `ValueError` makes the whole call return `[]`. -/
def parse_household_member_ids (header_value : Option (List Char)) : List Int :=
  match header_value with
  | none => []
  | some cs =>
    if cs.isEmpty then []
    else
      match optionTraverse pyIntParseChars (keptSegments cs) with
      | some xs => xs
      | none => []

/-! ## Codec lemmas -/

theorem digitChar_isDigit {d : Nat} (h : d < 10) : (digitChar d).isDigit = true := by
  interval_cases d <;> decide

theorem digitVal_digitChar {d : Nat} (h : d < 10) : digitVal (digitChar d) = d := by
  interval_cases d <;> decide

theorem isDigit_eq_false_of_isPySpace {c : Char} (h : isPySpace c = true) :
    c.isDigit = false := by
  simp only [isPySpace, pyWhitespace, decide_eq_true_eq,
    List.mem_cons, List.not_mem_nil, or_false] at h
  rcases h with rfl | rfl | rfl | rfl | rfl | rfl <;> decide

theorem isPySpace_eq_false_of_isDigit {c : Char} (h : c.isDigit = true) :
    isPySpace c = false := by
  cases hs : isPySpace c with
  | false => rfl
  | true => rw [isDigit_eq_false_of_isPySpace hs] at h; exact absurd h (by decide)

theorem dropWhile_eq_self_of_forall {α : Type} {p : α → Bool} :
    ∀ {cs : List α}, (∀ c ∈ cs, p c = false) → cs.dropWhile p = cs
  | [], _ => rfl
  | c :: cs, h => by
    simp [List.dropWhile_cons, h c (List.mem_cons_self c cs)]

theorem pyStripChars_eq_self {cs : List Char} (h : ∀ c ∈ cs, isPySpace c = false) :
    pyStripChars cs = cs := by
  unfold pyStripChars
  rw [dropWhile_eq_self_of_forall h,
    dropWhile_eq_self_of_forall (fun c hc => h c (List.mem_reverse.mp hc)),
    List.reverse_reverse]

theorem parseDigitsAux_map_digitChar :
    ∀ (L : List Nat) (a : Nat), (∀ d ∈ L, d < 10) →
      parseDigitsAux a (L.map digitChar) = some (L.foldl (fun x d => x * 10 + d) a)
  | [], _, _ => rfl
  | d :: L, a, h => by
    have hd : d < 10 := h d (List.mem_cons_self d L)
    simp only [List.map_cons, parseDigitsAux, digitChar_isDigit hd, if_true,
      digitVal_digitChar hd, List.foldl_cons]
    exact parseDigitsAux_map_digitChar L _ (fun x hx => h x (List.mem_cons_of_mem d hx))

theorem foldl_reverse_eq_ofDigits :
    ∀ L : List Nat, (L.reverse).foldl (fun x d => x * 10 + d) 0 = Nat.ofDigits 10 L
  | [] => rfl
  | d :: L => by
    rw [List.reverse_cons, List.foldl_append, foldl_reverse_eq_ofDigits L,
      Nat.ofDigits_cons]
    simp [List.foldl_cons]
    omega

theorem natToCharsAux_eq_digits :
    ∀ (fuel n : Nat) (acc : List Char), n ≤ fuel →
      natToCharsAux fuel n acc = ((Nat.digits 10 n).reverse.map digitChar) ++ acc
  | 0, n, acc, h => by
    have h0 : n = 0 := Nat.le_zero.mp h
    subst h0
    simp [natToCharsAux, Nat.digits_zero]
  | fuel + 1, n, acc, h => by
    by_cases h0 : n = 0
    · subst h0; simp [natToCharsAux, Nat.digits_zero]
    · have hdiv : n / 10 ≤ fuel := by omega
      rw [natToCharsAux, if_neg h0, natToCharsAux_eq_digits fuel (n / 10) _ hdiv,
        Nat.digits_def' (by norm_num : (1 : ℕ) < 10) (Nat.pos_of_ne_zero h0)]
      simp [List.append_assoc]

theorem natToChars_eq_digits {n : Nat} (h : n ≠ 0) :
    natToChars n = (Nat.digits 10 n).reverse.map digitChar := by
  unfold natToChars
  rw [if_neg h, natToCharsAux_eq_digits n n [] le_rfl, List.append_nil]

theorem parseNatChars_natToChars (n : Nat) : parseNatChars (natToChars n) = some n := by
  by_cases h : n = 0
  · subst h; rfl
  · have hne : (Nat.digits 10 n) ≠ [] := Nat.digits_ne_nil_iff_ne_zero.mpr h
    have hlt : ∀ d ∈ (Nat.digits 10 n).reverse, d < 10 := fun d hd =>
      Nat.digits_lt_base (by norm_num) (List.mem_reverse.mp hd)
    rw [natToChars_eq_digits h]
    unfold parseNatChars
    rw [if_neg (by simp [List.isEmpty_iff, hne]),
      parseDigitsAux_map_digitChar _ 0 hlt, foldl_reverse_eq_ofDigits,
      Nat.ofDigits_digits]

theorem natToChars_all_digits (n : Nat) : ∀ c ∈ natToChars n, c.isDigit = true := by
  by_cases h : n = 0
  · subst h
    intro c hc
    simp only [natToChars, if_true, List.mem_singleton, reduceIte] at hc
    subst hc; decide
  · rw [natToChars_eq_digits h]
    intro c hc
    obtain ⟨d, hd, rfl⟩ := List.mem_map.mp hc
    exact digitChar_isDigit (Nat.digits_lt_base (by norm_num) (List.mem_reverse.mp hd))

theorem natToChars_ne_nil (n : Nat) : natToChars n ≠ [] := by
  by_cases h : n = 0
  · subst h; decide
  · rw [natToChars_eq_digits h]
    simp [Nat.digits_ne_nil_iff_ne_zero, h]

theorem isDigit_ne_comma {c : Char} (h : c.isDigit = true) : c ≠ ',' := by
  rintro rfl; exact absurd h (by decide)

theorem isDigit_ne_plus {c : Char} (h : c.isDigit = true) : c ≠ '+' := by
  rintro rfl; exact absurd h (by decide)

theorem isDigit_ne_minus {c : Char} (h : c.isDigit = true) : c ≠ '-' := by
  rintro rfl; exact absurd h (by decide)

theorem pyIntParseChars_natToChars (n : Nat) :
    pyIntParseChars (natToChars n) = some (n : Int) := by
  have hd := natToChars_all_digits n
  have hstrip : pyStripChars (natToChars n) = natToChars n :=
    pyStripChars_eq_self (fun c hc => isPySpace_eq_false_of_isDigit (hd c hc))
  obtain ⟨c, rest, hcr⟩ : ∃ c rest, natToChars n = c :: rest := by
    cases hnc : natToChars n with
    | nil => exact absurd hnc (natToChars_ne_nil n)
    | cons c rest => exact ⟨c, rest, rfl⟩
  have hcd : c.isDigit = true := hd c (by rw [hcr]; exact List.mem_cons_self c rest)
  unfold pyIntParseChars
  rw [hstrip, hcr]
  simp only [if_neg (isDigit_ne_plus hcd), if_neg (isDigit_ne_minus hcd)]
  rw [← hcr, parseNatChars_natToChars]
  rfl

theorem pyStrOfInt_nonneg {x : Int} (h : 0 ≤ x) : pyStrOfInt x = natToChars x.toNat := by
  unfold pyStrOfInt
  rw [if_neg (by omega)]

theorem pyIntParseChars_pyStrOfInt {x : Int} (h : 0 ≤ x) :
    pyIntParseChars (pyStrOfInt x) = some x := by
  rw [pyStrOfInt_nonneg h, pyIntParseChars_natToChars]
  congr 1
  exact Int.toNat_of_nonneg h

theorem splitOnChar_no_sep {sep : Char} :
    ∀ (xs : List Char), (∀ c ∈ xs, c ≠ sep) → splitOnChar sep xs = [xs]
  | [], _ => rfl
  | c :: xs, h => by
    have ih := splitOnChar_no_sep xs (fun x hx => h x (List.mem_cons_of_mem c hx))
    simp only [splitOnChar, if_neg (h c (List.mem_cons_self c xs)), ih]

theorem splitOnChar_append {sep : Char} :
    ∀ (xs rest : List Char), (∀ c ∈ xs, c ≠ sep) →
      splitOnChar sep (xs ++ sep :: rest) = xs :: splitOnChar sep rest
  | [], rest, _ => by simp [splitOnChar]
  | c :: xs, rest, h => by
    have ih := splitOnChar_append xs rest (fun x hx => h x (List.mem_cons_of_mem c hx))
    simp only [List.cons_append, splitOnChar, if_neg (h c (List.mem_cons_self c xs)),
      List.append_eq, ih]

theorem splitOnChar_intercalate {sep : Char} :
    ∀ (p : List Char) (ps : List (List Char)),
      (∀ part ∈ p :: ps, ∀ c ∈ part, c ≠ sep) →
      splitOnChar sep (intercalateChars sep (p :: ps)) = p :: ps
  | p, [], h => by
    simp only [intercalateChars]
    exact splitOnChar_no_sep p (h p (List.mem_cons_self p []))
  | p, q :: qs, h => by
    have hstep : intercalateChars sep (p :: q :: qs)
        = p ++ sep :: intercalateChars sep (q :: qs) := rfl
    have ih := splitOnChar_intercalate q qs (fun part hp => h part (List.mem_cons_of_mem p hp))
    rw [hstep, splitOnChar_append p _ (h p (List.mem_cons_self p (q :: qs))), ih]

theorem optionTraverse_of_pointwise {α β : Type} (f : α → β) (g : β → Option α) :
    ∀ (l : List α), (∀ x ∈ l, g (f x) = some x) → optionTraverse g (l.map f) = some l
  | [], _ => rfl
  | x :: xs, h => by
    have ih := optionTraverse_of_pointwise f g xs (fun y hy => h y (List.mem_cons_of_mem x hy))
    simp only [List.map_cons, optionTraverse, h x (List.mem_cons_self x xs), ih]

theorem optionTraverse_eq_none {α β : Type} (g : α → Option β) :
    ∀ (l : List α) (x : α), x ∈ l → g x = none → optionTraverse g l = none
  | y :: ys, x, hmem, hnone => by
    rcases List.mem_cons.mp hmem with rfl | htail
    · simp only [optionTraverse, hnone]
    · have ih := optionTraverse_eq_none g ys x htail hnone
      simp only [optionTraverse, ih]
      cases g y <;> rfl

theorem isEmpty_eq_false_of_ne_nil {α : Type} {l : List α} (h : l ≠ []) :
    l.isEmpty = false := by
  cases l with
  | nil => exact absurd rfl h
  | cons a l => rfl

theorem map_eq_self_of_forall {α : Type} (f : α → α) :
    ∀ (l : List α), (∀ a ∈ l, f a = a) → l.map f = l
  | [], _ => rfl
  | a :: l, h => by
    rw [List.map_cons, h a (List.mem_cons_self a l),
      map_eq_self_of_forall f l (fun b hb => h b (List.mem_cons_of_mem a hb))]

theorem intercalateChars_ne_nil {sep : Char} {p : List Char} {ps : List (List Char)}
    (hp : p ≠ []) : intercalateChars sep (p :: ps) ≠ [] := by
  cases ps with
  | nil => exact hp
  | cons q qs =>
    have hstep : intercalateChars sep (p :: q :: qs)
        = p ++ sep :: intercalateChars sep (q :: qs) := rfl
    rw [hstep]
    simp

/-- C5: decoding the member-ids header produced by `build_context_headers`
reproduces the original list of non-negative integers, and absent or empty
input decodes to the empty list. -/
theorem member_ids_roundtrip (l : List Int) (h : ∀ x ∈ l, 0 ≤ x) :
    parse_household_member_ids (build_context_headers none none none (some l)).memberIds = l
    ∧ parse_household_member_ids none = []
    ∧ parse_household_member_ids (some []) = [] := by
  refine ⟨?_, rfl, rfl⟩
  cases l with
  | nil => rfl
  | cons x xs =>
    have hx0 : (0 : Int) ≤ x := h x (List.mem_cons_self x xs)
    have hdig : ∀ part ∈ (x :: xs).map pyStrOfInt, ∀ c ∈ part, c.isDigit = true := by
      intro part hp c hc
      obtain ⟨y, hy, rfl⟩ := List.mem_map.mp hp
      rw [pyStrOfInt_nonneg (h y hy)] at hc
      exact natToChars_all_digits _ c hc
    have hnosep : ∀ part ∈ (x :: xs).map pyStrOfInt, ∀ c ∈ part, c ≠ ',' :=
      fun part hp c hc => isDigit_ne_comma (hdig part hp c hc)
    have hne : ∀ part ∈ (x :: xs).map pyStrOfInt, part ≠ [] := by
      intro part hp
      obtain ⟨y, hy, rfl⟩ := List.mem_map.mp hp
      rw [pyStrOfInt_nonneg (h y hy)]
      exact natToChars_ne_nil _
    have hcs : intercalateChars ',' ((x :: xs).map pyStrOfInt) ≠ [] := by
      rw [List.map_cons]
      exact intercalateChars_ne_nil
        (by rw [pyStrOfInt_nonneg hx0]; exact natToChars_ne_nil _)
    have hsplit : splitOnChar ',' (intercalateChars ',' ((x :: xs).map pyStrOfInt))
        = (x :: xs).map pyStrOfInt := by
      rw [List.map_cons]
      exact splitOnChar_intercalate _ _ (by rw [← List.map_cons]; exact hnosep)
    have hstripmap : ((x :: xs).map pyStrOfInt).map pyStripChars
        = (x :: xs).map pyStrOfInt :=
      map_eq_self_of_forall pyStripChars _
        (fun a ha => pyStripChars_eq_self
          (fun c hc => isPySpace_eq_false_of_isDigit (hdig a ha c hc)))
    have hfilter : ((x :: xs).map pyStrOfInt).filter (fun m => !m.isEmpty)
        = (x :: xs).map pyStrOfInt :=
      List.filter_eq_self.mpr
        (fun a ha => by simp [isEmpty_eq_false_of_ne_nil (hne a ha)])
    have htrav : optionTraverse pyIntParseChars ((x :: xs).map pyStrOfInt)
        = some (x :: xs) :=
      optionTraverse_of_pointwise pyStrOfInt pyIntParseChars (x :: xs)
        (fun y hy => pyIntParseChars_pyStrOfInt (h y hy))
    have hmem : (build_context_headers none none none (some (x :: xs))).memberIds
        = some (intercalateChars ',' ((x :: xs).map pyStrOfInt)) := rfl
    rw [hmem]
    simp only [parse_household_member_ids, keptSegments,
      isEmpty_eq_false_of_ne_nil hcs, Bool.false_eq_true, if_false,
      hsplit, hstripmap, hfilter, htrav]

/-- Witness for C5 at the concrete list [1, 2, 3]. -/
theorem member_ids_roundtrip_witness :
    parse_household_member_ids
        (build_context_headers none none none (some [1, 2, 3])).memberIds = [1, 2, 3]
    ∧ parse_household_member_ids none = []
    ∧ parse_household_member_ids (some []) = [] :=
  member_ids_roundtrip [1, 2, 3] (by decide)

/-- C6: whenever one of the comma-separated segments (stripped, empty segments
dropped) fails integer parsing, `parse_household_member_ids` returns the empty
list; the function is total, so no fault escapes. -/
theorem parse_household_member_ids_fail_open (cs seg : List Char)
    (hseg : seg ∈ keptSegments cs) (hfail : pyIntParseChars seg = none) :
    parse_household_member_ids (some cs) = [] := by
  simp only [parse_household_member_ids]
  by_cases hempty : cs.isEmpty
  · rw [if_pos hempty]
  · rw [if_neg hempty,
      optionTraverse_eq_none pyIntParseChars (keptSegments cs) seg hseg hfail]

/-- Witness for C6 at the concrete header value "1,abc,3". -/
theorem parse_household_member_ids_fail_open_witness :
    ['a', 'b', 'c'] ∈ keptSegments ['1', ',', 'a', 'b', 'c', ',', '3']
    ∧ pyIntParseChars ['a', 'b', 'c'] = none
    ∧ parse_household_member_ids (some ['1', ',', 'a', 'b', 'c', ',', '3']) = [] :=
  ⟨by decide, by decide,
    parse_household_member_ids_fail_open ['1', ',', 'a', 'b', 'c', ',', '3']
      ['a', 'b', 'c'] (by decide) (by decide)⟩

/-! ## Embedding of jarvis_auth_client/models.py -/

/-- `AppValidationResult` from models.py. -/
structure AppValidationResult where
  valid : Bool
  app_id : Option String := none
  name : Option String := none
  error : Option String := none
  deriving Repr, DecidableEq

/-- `RequestContext` from models.py. -/
structure RequestContext where
  household_id : Option String := none
  node_id : Option String := none
  user_id : Option Int := none
  household_member_ids : List Int := []
  deriving Repr, DecidableEq

/-- `AppAuthResult` from models.py. -/
structure AppAuthResult where
  app : AppValidationResult
  context : RequestContext
  deriving Repr, DecidableEq

/-! ## Embedding of jarvis_auth_client/fastapi.py

The module-level mutable state (`_auth_base_url`, `_http_client`,
`_cache_ttl`) is threaded explicitly through every operation, together with
bookkeeping that records which HTTP clients were created and closed and how
many outbound requests were issued.  The network is an explicit input: the
response (or the `httpx.RequestError`) that the single outbound GET would
produce. -/

/-- Python truthiness of an optional Lean `String`. -/
def optTruthyStr : Option String → Bool
  | none => false
  | some s => s ≠ ""

/-- Python `a or b` on optional strings (an empty string is falsy). -/
def pyStrOr (a b : Option String) : Option String :=
  if optTruthyStr a then a else b

/-- Module-level state of jarvis_auth_client.fastapi plus instrumentation.
`envAuthUrl` is the value of the JARVIS_AUTH_BASE_URL environment variable;
`httpClient` is the shared `httpx.AsyncClient`, identified by a number;
`outboundCalls` counts the outbound GET requests issued. -/
structure ModState where
  authBaseUrl : Option String := none
  envAuthUrl : Option String := none
  cacheTtl : Int := 60
  httpClient : Option Nat := none
  nextClientId : Nat := 0
  closedClients : List Nat := []
  outboundCalls : Nat := 0
  deriving Repr, DecidableEq

/-- `init` from fastapi.py: resolve and store the auth base URL and TTL. -/
def init (auth_base_url : Option String) (cache_ttl : Int) (s : ModState) : ModState :=
  { s with authBaseUrl := pyStrOr auth_base_url s.envAuthUrl, cacheTtl := cache_ttl }

/-- `shutdown` from fastapi.py: close the shared client if present and drop it. -/
def shutdown (s : ModState) : ModState :=
  match s.httpClient with
  | some c => { s with httpClient := none, closedClients := c :: s.closedClients }
  | none => s

/-- `_get_auth_url` from fastapi.py: the stored URL or the environment
variable; `none` models the `ValueError` raised when both are missing. -/
def getAuthUrl (s : ModState) : Option String :=
  let url := pyStrOr s.authBaseUrl s.envAuthUrl
  if optTruthyStr url then url else none

/-- `_get_client` from fastapi.py: return the shared client, creating a fresh
one when none exists. -/
def getClient (s : ModState) : Nat × ModState :=
  match s.httpClient with
  | some c => (c, s)
  | none =>
    (s.nextClientId,
      { s with httpClient := some s.nextClientId, nextClientId := s.nextClientId + 1 })

/-- The JSON body of a 200 response from the app-ping endpoint, as read by
`data.get("app_id")` and `data.get("name")`. -/
structure AppPingBody where
  app_id : Option String := none
  name : Option String := none
  deriving Repr, DecidableEq

/-- An HTTP response from the authority; `body` is `none` when the payload is
not valid JSON (`response.json()` would raise). -/
structure HttpResponse where
  status : Nat
  body : Option AppPingBody := none
  deriving Repr, DecidableEq

/-- What the single outbound GET of `validate_app_credentials` produces: a
response, or a transport-level `httpx.RequestError` carrying its message. -/
def NetResult : Type := Except String HttpResponse

/-- Result of a call to `validate_app_credentials`.  `configError` is the
`ValueError` raised by `_get_auth_url`; `fault` is any other uncaught
exception (only the JSON decoding of a 200 body can raise one). -/
inductive ValidateResult where
  | ok (r : AppValidationResult)
  | configError (msg : String)
  | fault (msg : String)
  deriving Repr, DecidableEq

/-- `validate_app_credentials` from fastapi.py.  The credential pair is
attached to the outbound request as headers; the mapping of the authority
response to the result depends only on `resp`. -/
def validate_app_credentials (app_id app_key : String) (resp : NetResult)
    (s : ModState) : ValidateResult × ModState :=
  match getAuthUrl s with
  | none =>
    (.configError
      "jarvis-auth-client not initialized: call init(auth_base_url=...) or set JARVIS_AUTH_BASE_URL",
      s)
  | some _ =>
    let s1 := (getClient s).2
    let s2 := { s1 with outboundCalls := s1.outboundCalls + 1 }
    match resp with
    | .error e =>
      (.ok { valid := false, error := some ("Auth service unavailable: " ++ e) }, s2)
    | .ok r =>
      if r.status = 200 then
        match r.body with
        | some d => (.ok { valid := true, app_id := d.app_id, name := d.name }, s2)
        | none => (.fault "response body is not valid JSON", s2)
      else if r.status = 401 then
        (.ok { valid := false, error := some "Invalid app credentials" }, s2)
      else
        (.ok { valid := false, error := some ("Auth service error: " ++ toString r.status) }, s2)

/-- `_cached_validation` from fastapi.py: an `lru_cache`-decorated placeholder
whose body is `pass`, so it returns Python `None`; it is never called. -/
def cachedValidation (_app_id _app_key : String) : Option AppValidationResult := none

/-- The raw inbound headers consumed by the `_dependency` closure returned by
`require_app_auth`, before any framework coercion. -/
structure RawHeaders where
  x_jarvis_app_id : Option String := none
  x_jarvis_app_key : Option String := none
  x_context_household_id : Option String := none
  x_context_node_id : Option String := none
  x_context_user_id : Option String := none
  x_context_household_member_ids : Option String := none
  deriving Repr, DecidableEq

/-- Outcome of one request through the `_dependency` closure.
`validationError` is the framework-level rejection (HTTP 422) produced when a
typed header fails coercion, before the dependency body runs; `httpError` is a
raised `HTTPException`; `configFault` is the uncaught `ValueError` from
`_get_auth_url`; `fault` is any other uncaught exception. -/
inductive DepOutcome where
  | validationError
  | httpError (status : Nat) (detail : String)
  | ok (r : AppAuthResult)
  | configFault (msg : String)
  | fault (msg : String)
  deriving Repr, DecidableEq

/-- The framework coercion of the `X-Context-User-Id` header, declared as
`int | None` in the `_dependency` signature: an absent header passes through
as `None`; a present header must parse as a decimal integer, otherwise the
framework rejects the request with a validation error. -/
def coerceUserIdHeader : Option String → Except Unit (Option Int)
  | none => .ok none
  | some raw =>
    match pyIntParseChars raw.data with
    | some n => .ok (some n)
    | none => .error ()

/-- Python `a or default` for the detail of the invalid-credential rejection. -/
def pyStrOrDefault (a : Option String) (d : String) : String :=
  match a with
  | some s => if s = "" then d else s
  | none => d

/-- The `_dependency` closure from `require_app_auth` in fastapi.py: framework
header coercion, the missing-credentials guard, the outbound validation, and
context construction. -/
def dependency (h : RawHeaders) (resp : NetResult) (s : ModState) :
    DepOutcome × ModState :=
  match coerceUserIdHeader h.x_context_user_id with
  | .error _ => (.validationError, s)
  | .ok userId =>
    match h.x_jarvis_app_id, h.x_jarvis_app_key with
    | some aid, some akey =>
      if aid = "" ∨ akey = "" then (.httpError 401 "Missing app credentials", s)
      else
        match validate_app_credentials aid akey resp s with
        | (.configError msg, s1) => (.configFault msg, s1)
        | (.fault msg, s1) => (.fault msg, s1)
        | (.ok v, s1) =>
          if v.valid then
            (.ok
              { app := v
                context :=
                  { household_id := h.x_context_household_id
                    node_id := h.x_context_node_id
                    user_id := userId
                    household_member_ids :=
                      parse_household_member_ids
                        (h.x_context_household_member_ids.map String.data) } }, s1)
          else (.httpError 401 (pyStrOrDefault v.error "Invalid app credentials"), s1)
    | _, _ => (.httpError 401 "Missing app credentials", s)

/-- `needle` occurs contiguously inside `hay`. -/
def strContains (hay needle : String) : Prop := needle.data <:+: hay.data

instance strContains.decidable (hay needle : String) : Decidable (strContains hay needle) :=
  List.decidableInfix needle.data hay.data

/-- Whatever the network produces, a call that got past the URL check bumps
the outbound counter on the lazily obtained client and never reports a
configuration error. -/
theorem validate_app_credentials_state (app_id app_key : String) (resp : NetResult)
    (s : ModState) (url : String) (hurl : getAuthUrl s = some url) :
    (validate_app_credentials app_id app_key resp s).2
      = { (getClient s).2 with outboundCalls := (getClient s).2.outboundCalls + 1 }
    ∧ ∀ m, (validate_app_credentials app_id app_key resp s).1 ≠ .configError m := by
  rcases resp with e | r
  · constructor
    · simp only [validate_app_credentials, hurl]
    · intro m
      simp only [validate_app_credentials, hurl]
      exact fun h => by cases h
  · by_cases h2 : r.status = 200
    · cases hb : r.body with
      | some d =>
        constructor
        · simp only [validate_app_credentials, hurl, h2, hb, reduceIte]
        · intro m
          simp only [validate_app_credentials, hurl, h2, hb, reduceIte]
          exact fun h => by cases h
      | none =>
        constructor
        · simp only [validate_app_credentials, hurl, h2, hb, reduceIte]
        · intro m
          simp only [validate_app_credentials, hurl, h2, hb, reduceIte]
          exact fun h => by cases h
    · by_cases h4 : r.status = 401
      · constructor
        · simp only [validate_app_credentials, hurl, if_neg h2]
          rw [if_pos h4]
        · intro m
          simp only [validate_app_credentials, hurl, if_neg h2]
          rw [if_pos h4]
          exact fun h => by cases h
      · constructor
        · simp only [validate_app_credentials, hurl, if_neg h2, if_neg h4]
        · intro m
          simp only [validate_app_credentials, hurl, if_neg h2, if_neg h4]
          exact fun h => by cases h

/-- C1 (code bug evidence): two successive validations of the same credential
pair both issue an outbound request — the `lru_cache` placeholder
`_cached_validation` holds nothing and is never consulted. -/
theorem validate_app_credentials_no_cache :
    ((validate_app_credentials "app" "key"
      (Except.ok { status := 200, body := some { app_id := some "app", name := some "App" } })
      ((validate_app_credentials "app" "key"
        (Except.ok { status := 200, body := some { app_id := some "app", name := some "App" } })
        (init (some "http://auth") 60 {})).2)).2.outboundCalls = 2)
    ∧ cachedValidation "app" "key" = none :=
  ⟨rfl, rfl⟩

/-- C2: the authority response is mapped to the validation outcome exactly as
specified: 200 copies `app_id` and `name` from the body with no error, 401
yields the fixed invalid-credentials error, and any other status yields an
error string containing the decimal status code. -/
theorem validate_app_credentials_response_mapping
    (app_id app_key url : String) (r : HttpResponse) (s : ModState)
    (hurl : getAuthUrl s = some url) :
    (∀ d, r.status = 200 → r.body = some d →
      (validate_app_credentials app_id app_key (.ok r) s).1
        = .ok { valid := true, app_id := d.app_id, name := d.name, error := none })
    ∧ (r.status = 401 →
      (validate_app_credentials app_id app_key (.ok r) s).1
        = .ok { valid := false, app_id := none, name := none,
                error := some "Invalid app credentials" })
    ∧ (r.status ≠ 200 → r.status ≠ 401 →
      (validate_app_credentials app_id app_key (.ok r) s).1
        = .ok { valid := false, app_id := none, name := none,
                error := some ("Auth service error: " ++ Nat.repr r.status) }
      ∧ strContains ("Auth service error: " ++ Nat.repr r.status) (Nat.repr r.status)) := by
  refine ⟨?_, ?_, ?_⟩
  · intro d h200 hbody
    simp only [validate_app_credentials, hurl, h200, hbody, reduceIte]
  · intro h401
    have h2 : r.status ≠ 200 := by omega
    simp only [validate_app_credentials, hurl, if_neg h2]
    rw [if_pos h401]
  · intro h2 h4
    constructor
    · simp only [validate_app_credentials, hurl, if_neg h2, if_neg h4]
      rfl
    · show (Nat.repr r.status).data <:+: ("Auth service error: " ++ Nat.repr r.status).data
      rw [String.data_append]
      exact ⟨"Auth service error: ".data, [], by simp⟩

/-- Witness for C2 at a concrete state and a concrete 503 response. -/
theorem validate_app_credentials_response_mapping_witness :
    getAuthUrl (init (some "http://auth") 60 {}) = some "http://auth"
    ∧ ((503 : Nat) ≠ 200 ∧ (503 : Nat) ≠ 401
    ∧ (validate_app_credentials "a" "k" (.ok { status := 503, body := none })
        (init (some "http://auth") 60 {})).1
        = .ok { valid := false, app_id := none, name := none,
                error := some ("Auth service error: " ++ Nat.repr 503) }) :=
  ⟨rfl, by decide, by decide,
    ((validate_app_credentials_response_mapping "a" "k" "http://auth"
      { status := 503, body := none } (init (some "http://auth") 60 {}) rfl).2.2
      (by decide) (by decide)).1⟩

/-- C3: a transport-level failure of the outbound call is returned as a
recoverable outcome: `valid = false` with an error mentioning unavailability;
no exception escapes (the result is an ordinary `ok` value). -/
theorem validate_app_credentials_transport_error
    (app_id app_key url e : String) (s : ModState) (hurl : getAuthUrl s = some url) :
    (validate_app_credentials app_id app_key (.error e) s).1
      = .ok { valid := false, app_id := none, name := none,
              error := some ("Auth service unavailable: " ++ e) }
    ∧ strContains ("Auth service unavailable: " ++ e) "unavailable" := by
  constructor
  · simp only [validate_app_credentials, hurl]
  · show "unavailable".data <:+: ("Auth service unavailable: " ++ e).data
    rw [String.data_append]
    have hsplitlit : "Auth service unavailable: ".data
        = "Auth service ".data ++ "unavailable".data ++ ": ".data := rfl
    rw [hsplitlit]
    exact ⟨"Auth service ".data, ": ".data ++ e.data, by simp⟩

/-- Witness for C3 at a concrete connection failure. -/
theorem validate_app_credentials_transport_error_witness :
    getAuthUrl (init (some "http://auth") 60 {}) = some "http://auth"
    ∧ (validate_app_credentials "a" "k" (.error "connection refused")
        (init (some "http://auth") 60 {})).1
      = .ok { valid := false, app_id := none, name := none,
              error := some ("Auth service unavailable: " ++ "connection refused") } :=
  ⟨rfl,
    (validate_app_credentials_transport_error "a" "k" "http://auth" "connection refused"
      (init (some "http://auth") 60 {}) rfl).1⟩

/-- C4 counterexample: with the app-key header missing, the dependency
rejects with 401, but the detail is the capitalized string
"Missing app credentials", not "missing app credentials" as the claim
states. -/
theorem dependency_missing_key_detail_capitalized :
    (dependency { x_jarvis_app_id := some "service-a" } (Except.error "unused") {}).1
      = .httpError 401 "Missing app credentials"
    ∧ "Missing app credentials" ≠ "missing app credentials" :=
  ⟨rfl, by decide⟩

/-- C4 amended: when the app-id or app-key header is missing (and the typed
user-id header passes framework coercion), the dependency rejects with 401
and detail "Missing app credentials" — the spec phrase up to capitalization —
and no outbound call is issued. -/
theorem dependency_missing_credentials_rejects
    (h : RawHeaders) (resp : NetResult) (s : ModState)
    (hmiss : h.x_jarvis_app_id = none ∨ h.x_jarvis_app_key = none)
    (huid : coerceUserIdHeader h.x_context_user_id ≠ .error ()) :
    (dependency h resp s).1 = .httpError 401 "Missing app credentials"
    ∧ (dependency h resp s).2.outboundCalls = s.outboundCalls := by
  obtain ⟨uid, hcu⟩ : ∃ uid, coerceUserIdHeader h.x_context_user_id = .ok uid := by
    cases hc : coerceUserIdHeader h.x_context_user_id with
    | error u => cases u; exact absurd hc huid
    | ok uid => exact ⟨uid, rfl⟩
  cases haid : h.x_jarvis_app_id with
  | none =>
    cases hak : h.x_jarvis_app_key with
    | none => exact ⟨by simp [dependency, hcu, haid, hak], by simp [dependency, hcu, haid, hak]⟩
    | some k => exact ⟨by simp [dependency, hcu, haid, hak], by simp [dependency, hcu, haid, hak]⟩
  | some a =>
    cases hak : h.x_jarvis_app_key with
    | none => exact ⟨by simp [dependency, hcu, haid, hak], by simp [dependency, hcu, haid, hak]⟩
    | some k =>
      rcases hmiss with h1 | h1
      · exact absurd (haid ▸ h1) (by simp)
      · exact absurd (hak ▸ h1) (by simp)

/-- Witness for C4 at a concrete request lacking the app-key header. -/
theorem dependency_missing_credentials_rejects_witness :
    (dependency { x_jarvis_app_id := some "service-b" } (Except.error "down") {}).1
      = .httpError 401 "Missing app credentials"
    ∧ (dependency { x_jarvis_app_id := some "service-b" } (Except.error "down") {}).2.outboundCalls
      = ({} : ModState).outboundCalls :=
  dependency_missing_credentials_rejects
    { x_jarvis_app_id := some "service-b" } (Except.error "down") {}
    (Or.inr rfl) (by simp [coerceUserIdHeader])

/-- C7 counterexample: a request with valid credentials whose
`X-Context-User-Id` header is "abc" is rejected by the framework coercion of
the typed header (HTTP 422); it does not produce a `RequestContext` with
`user_id = None`. -/
theorem dependency_malformed_user_id_not_absent :
    (dependency
      { x_jarvis_app_id := some "a", x_jarvis_app_key := some "k",
        x_context_user_id := some "abc" }
      (Except.ok { status := 200, body := some { app_id := some "a", name := some "A" } })
      (init (some "http://auth") 60 {})).1
      = .validationError := rfl

/-- C7 amended: whenever the user-id header is present but fails integer
coercion, the request is rejected at the framework layer before the
dependency body runs: no context is built and no outbound call is issued. -/
theorem dependency_malformed_user_id_validation_error
    (h : RawHeaders) (resp : NetResult) (s : ModState) (raw : String)
    (hraw : h.x_context_user_id = some raw) (hbad : pyIntParseChars raw.data = none) :
    (dependency h resp s).1 = .validationError
    ∧ (dependency h resp s).2.outboundCalls = s.outboundCalls := by
  have hcu : coerceUserIdHeader h.x_context_user_id = .error () := by
    rw [hraw]
    simp [coerceUserIdHeader, hbad]
  exact ⟨by simp [dependency, hcu], by simp [dependency, hcu]⟩

/-- Witness for C7 at the user-id header value "abc". -/
theorem dependency_malformed_user_id_validation_error_witness :
    (dependency
      { x_jarvis_app_id := some "a", x_jarvis_app_key := some "k",
        x_context_user_id := some "abc" }
      (Except.error "down") {}).1 = .validationError
    ∧ (dependency
      { x_jarvis_app_id := some "a", x_jarvis_app_key := some "k",
        x_context_user_id := some "abc" }
      (Except.error "down") {}).2.outboundCalls = ({} : ModState).outboundCalls :=
  dependency_malformed_user_id_validation_error
    { x_jarvis_app_id := some "a", x_jarvis_app_key := some "k",
      x_context_user_id := some "abc" }
    (Except.error "down") {} "abc" rfl (by decide)

/-- C8 counterexample: after shutdown has released the shared client, a
validation attempt does not fail with a configuration error — it lazily
creates a fresh client and issues an outbound call. -/
theorem validate_after_shutdown_not_guarded :
    (validate_app_credentials "app" "key"
      (Except.ok { status := 200, body := some { app_id := some "app", name := some "App" } })
      (shutdown (getClient (init (some "http://auth") 60 {})).2)).1
      = .ok { valid := true, app_id := some "app", name := some "App", error := none }
    ∧ (validate_app_credentials "app" "key"
      (Except.ok { status := 200, body := some { app_id := some "app", name := some "App" } })
      (shutdown (getClient (init (some "http://auth") 60 {})).2)).2.httpClient = some 1
    ∧ (validate_app_credentials "app" "key"
      (Except.ok { status := 200, body := some { app_id := some "app", name := some "App" } })
      (shutdown (getClient (init (some "http://auth") 60 {})).2)).2.outboundCalls = 1 :=
  ⟨rfl, rfl, rfl⟩

/-- C8 amended: `shutdown` is idempotent and releases the shared client; but
after shutdown a validation with a configured URL does not fail with a
configuration error — it creates a fresh client and issues an outbound
call. -/
theorem shutdown_idempotent_release_no_guard
    (s : ModState) (url app_id app_key : String) (resp : NetResult)
    (hurl : getAuthUrl (shutdown s) = some url) :
    shutdown (shutdown s) = shutdown s
    ∧ (shutdown s).httpClient = none
    ∧ (validate_app_credentials app_id app_key resp (shutdown s)).2.httpClient
        = some (shutdown s).nextClientId
    ∧ (validate_app_credentials app_id app_key resp (shutdown s)).2.outboundCalls
        = (shutdown s).outboundCalls + 1
    ∧ ∀ m, (validate_app_credentials app_id app_key resp (shutdown s)).1 ≠ .configError m := by
  have hrel : (shutdown s).httpClient = none := by
    cases hc : s.httpClient <;> simp [shutdown, hc]
  have hidem : shutdown (shutdown s) = shutdown s := by
    cases hc : s.httpClient <;> simp [shutdown, hc]
  have hgc2 : (getClient (shutdown s)).2.httpClient = some (shutdown s).nextClientId := by
    simp [getClient, hrel]
  have hgc3 : (getClient (shutdown s)).2.outboundCalls = (shutdown s).outboundCalls := by
    simp [getClient, hrel]
  obtain ⟨hstate, hnocfg⟩ :=
    validate_app_credentials_state app_id app_key resp (shutdown s) url hurl
  refine ⟨hidem, hrel, ?_, ?_, hnocfg⟩
  · rw [hstate]
    simpa using hgc2
  · rw [hstate]
    simpa using hgc3

/-- Witness for C8 at a concrete initialized-then-shut-down state. -/
theorem shutdown_idempotent_release_no_guard_witness :
    getAuthUrl (shutdown (init (some "http://auth") 60 {})) = some "http://auth"
    ∧ (shutdown (shutdown (init (some "http://auth") 60 {}))
        = shutdown (init (some "http://auth") 60 {})
      ∧ (shutdown (init (some "http://auth") 60 {})).httpClient = none
      ∧ (validate_app_credentials "a" "k" (Except.error "down")
          (shutdown (init (some "http://auth") 60 {}))).2.httpClient
          = some (shutdown (init (some "http://auth") 60 {})).nextClientId
      ∧ (validate_app_credentials "a" "k" (Except.error "down")
          (shutdown (init (some "http://auth") 60 {}))).2.outboundCalls
          = (shutdown (init (some "http://auth") 60 {})).outboundCalls + 1
      ∧ ∀ m, (validate_app_credentials "a" "k" (Except.error "down")
          (shutdown (init (some "http://auth") 60 {}))).1 ≠ .configError m) :=
  ⟨rfl,
    shutdown_idempotent_release_no_guard (init (some "http://auth") 60 {})
      "http://auth" "a" "k" (Except.error "down") rfl⟩

/-! ## Embedding of jarvis_auth_client/client.py

The JWT cryptography lives in the jose library, outside this repository, so
the decode step is an oracle: for a given token it either raises
`ExpiredSignatureError`, raises another `JWTError`, or returns the decoded
payload, a JSON object. -/

/-- A JSON value as found in a decoded JWT payload. -/
inductive JValue where
  | null
  | bool (b : Bool)
  | int (n : Int)
  | str (s : String)
  deriving Repr, DecidableEq

/-- Python truthiness of a JSON value. -/
def JValue.truthy : JValue → Bool
  | .null => false
  | .bool b => b
  | .int n => n ≠ 0
  | .str s => s ≠ ""

/-- A decoded JWT payload: claim names mapped to JSON values; `List.lookup`
plays the role of `dict.get`. -/
def Payload : Type := List (String × JValue)

/-- Module state of jarvis_auth_client.client. -/
structure ClientState where
  secretKey : Option String := none
  algorithm : String := "HS256"
  deriving Repr, DecidableEq

/-- Behavior of `jose.jwt.decode` on one token: signature valid but expired,
otherwise invalid, or successfully decoded. -/
inductive DecodeOutcome where
  | expired
  | invalid
  | ok (p : Payload)

/-- `SuperuserUser` from models.py; `email` holds the raw JSON value passed
to the constructor. -/
structure SuperuserUser where
  user_id : Int
  email : Option JValue := none
  auth_type : String := "superuser_jwt"
  deriving Repr, DecidableEq

/-- Result of `require_superuser`: a raised `HTTPException` with status and
detail, a returned user, or an uncaught Python exception. -/
inductive SuperuserOutcome where
  | httpError (status : Nat) (detail : String)
  | ok (u : SuperuserUser)
  | fault (msg : String)
  deriving Repr, DecidableEq

/-- `int(x)` on a JSON value, as in `int(user_id)`: integers pass through,
booleans coerce, strings parse as decimal integers, anything else (or an
unparseable string) raises. -/
def pyIntOfJValue : JValue → Option Int
  | .int n => some n
  | .bool b => some (if b then 1 else 0)
  | .str s => pyIntParseChars s.data
  | .null => none

/-- Python `authorization[7:]`: character-based slicing. -/
def bearerToken (a : String) : String := String.mk (a.data.drop 7)

/-- `_decode_jwt` from client.py: the configuration check, then the jose
decode with its two error translations. -/
def decodeJwt (st : ClientState) (token : String)
    (decode : String → DecodeOutcome) : Except (Nat × String) Payload :=
  if ¬ optTruthyStr st.secretKey then
    .error (500, "jarvis-auth-client not initialized: call init(secret_key=...) at startup")
  else
    match decode token with
    | .expired => .error (401, "Token has expired")
    | .invalid => .error (401, "Invalid token")
    | .ok p => .ok p

/-- `require_superuser` from client.py.  `str.startswith` is embedded as a
character-list check. -/
def require_superuser (st : ClientState) (authorization : Option String)
    (decode : String → DecodeOutcome) : SuperuserOutcome :=
  match authorization with
  | none => .httpError 401 "Missing Authorization header"
  | some a =>
    if a = "" then .httpError 401 "Missing Authorization header"
    else if ¬ ("Bearer ".data.isPrefixOf a.data) then
      .httpError 401 "Invalid Authorization header format. Expected: Bearer <token>"
    else
      match decodeJwt st (bearerToken a) decode with
      | .error (c, d) => .httpError c d
      | .ok p =>
        if ¬ ((List.lookup "is_superuser" p).getD (.bool false)).truthy then
          .httpError 403 "Superuser access required"
        else
          match List.lookup "sub" p with
          | none => .httpError 401 "Invalid token: missing user ID"
          | some v =>
            if ¬ v.truthy then .httpError 401 "Invalid token: missing user ID"
            else
              match pyIntOfJValue v with
              | some n => .ok { user_id := n, email := List.lookup "email" p }
              | none => .fault "invalid literal for int()"

/-- C9 counterexample: a decoded `is_superuser` claim that is the string
"false" is not true, yet the check `if not is_superuser` accepts it (a
non-empty string is truthy), so the request is not rejected with 403 — it
returns a user. -/
theorem require_superuser_truthy_nonbool_accepted :
    require_superuser { secretKey := some "secret" } (some "Bearer tok")
      (fun _ => .ok [("is_superuser", .str "false"), ("sub", .str "7")])
      = .ok { user_id := 7, email := none, auth_type := "superuser_jwt" }
    ∧ JValue.str "false" ≠ JValue.bool true :=
  ⟨rfl, by decide⟩

/-- C9 amended: for an initialized client and a well-formed Bearer header,
an expired token is rejected 401 with "expired" in the detail; a decoded
payload whose `is_superuser` claim is falsy (false, absent, 0, null or an
empty string — though not every value that is "not true") is rejected 403;
and a payload passing the superuser check whose `sub` claim is absent is
rejected 401 with "missing user ID" in the detail. -/
theorem require_superuser_rejections
    (st : ClientState) (key a : String) (decode : String → DecodeOutcome)
    (hkey : st.secretKey = some key) (hkeyne : key ≠ "")
    (hbearer : "Bearer ".data.isPrefixOf a.data = true) :
    (decode (bearerToken a) = .expired →
      require_superuser st (some a) decode = .httpError 401 "Token has expired"
      ∧ strContains "Token has expired" "expired")
    ∧ (∀ p, decode (bearerToken a) = .ok p →
        ((List.lookup "is_superuser" p).getD (.bool false)).truthy = false →
        require_superuser st (some a) decode = .httpError 403 "Superuser access required")
    ∧ (∀ p, decode (bearerToken a) = .ok p →
        ((List.lookup "is_superuser" p).getD (.bool false)).truthy = true →
        List.lookup "sub" p = none →
        require_superuser st (some a) decode
          = .httpError 401 "Invalid token: missing user ID"
        ∧ strContains "Invalid token: missing user ID" "missing user ID") := by
  have hane : ¬ (a = "") := by
    intro h
    subst h
    exact absurd hbearer (by decide)
  refine ⟨?_, ?_, ?_⟩
  · intro hexp
    refine ⟨?_, by decide⟩
    simp [require_superuser, decodeJwt, hane, hbearer, hkey, optTruthyStr, hkeyne, hexp]
  · intro p hp hsup
    simp [require_superuser, decodeJwt, hane, hbearer, hkey, optTruthyStr, hkeyne, hp, hsup]
  · intro p hp hsup hsub
    refine ⟨?_, by decide⟩
    simp [require_superuser, decodeJwt, hane, hbearer, hkey, optTruthyStr, hkeyne, hp,
      hsup, hsub]

/-- Witness for C9: missing `sub` claim on a superuser token. -/
theorem require_superuser_rejections_witness :
    require_superuser { secretKey := some "s" } (some "Bearer t")
      (fun _ => .ok [("is_superuser", .bool true)])
      = .httpError 401 "Invalid token: missing user ID"
    ∧ strContains "Invalid token: missing user ID" "missing user ID" :=
  (require_superuser_rejections { secretKey := some "s" } "s" "Bearer t"
    (fun _ => .ok [("is_superuser", .bool true)]) rfl (by decide) (by decide)).2.2
    [("is_superuser", .bool true)] rfl (by decide) (by decide)

/-- C10: a verified superuser token whose `sub` claim is a non-empty string
that does not parse as an integer makes `require_superuser` neither return a
user nor raise one of the specified rejections: the `int(user_id)`
conversion raises an uncaught `ValueError`. -/
theorem require_superuser_nonint_sub_fault
    (st : ClientState) (key a subc : String) (decode : String → DecodeOutcome) (p : Payload)
    (hkey : st.secretKey = some key) (hkeyne : key ≠ "")
    (hbearer : "Bearer ".data.isPrefixOf a.data = true)
    (hdec : decode (bearerToken a) = .ok p)
    (hsup : ((List.lookup "is_superuser" p).getD (.bool false)).truthy = true)
    (hsub : List.lookup "sub" p = some (.str subc))
    (hne : subc ≠ "") (hbad : pyIntParseChars subc.data = none) :
    require_superuser st (some a) decode = .fault "invalid literal for int()" := by
  have hane : ¬ (a = "") := by
    intro h
    subst h
    exact absurd hbearer (by decide)
  have htr : (JValue.str subc).truthy = true := by
    simp [JValue.truthy, hne]
  simp [require_superuser, decodeJwt, hane, hbearer, hkey, optTruthyStr, hkeyne, hdec,
    hsup, hsub, htr, pyIntOfJValue, hbad]

/-- Witness for C10 at the sub claim "abc". -/
theorem require_superuser_nonint_sub_fault_witness :
    require_superuser { secretKey := some "s" } (some "Bearer t")
      (fun _ => .ok [("is_superuser", .bool true), ("sub", .str "abc")])
      = .fault "invalid literal for int()" :=
  require_superuser_nonint_sub_fault { secretKey := some "s" } "s" "Bearer t" "abc"
    (fun _ => .ok [("is_superuser", .bool true), ("sub", .str "abc")])
    [("is_superuser", .bool true), ("sub", .str "abc")]
    rfl (by decide) (by decide) rfl (by decide) (by decide) (by decide) (by decide)

end JarvisAuthClient
